import Mathlib

/-!
Verification of the multimodal fusion-and-forecasting core of the
trifetch-mvp repository (cognitive-digital-twin subproject).

The development shallowly embeds the arithmetic of the inference and
scenario engine (the what-if decline-factor logic of infer.py and app.py,
recorded verbatim in PHASE_5_COMPLETE.md), the training pipeline's
checkpointing and early-stopping rules, the MC-dropout uncertainty
estimator, the fusion/forecast forward passes, the checkpoint-store write
protocol, and the stylus embedding extractor's bounded output layer.
Real-number arithmetic of the source is modelled over ℚ (exact rationals)
except where a transcendental activation forces ℝ.
-/

namespace Trifetch

/-! ## Inference & Scenario Engine (PHASE_5_COMPLETE.md, What-If Scenario Logic)

The decline-factor and adjustment formulas below are transcribed from the
code block in PHASE_5_COMPLETE.md lines 121-139:

  decline_factor = 1.0
  decline_factor -= sleep_adjustment * 0.05
  decline_factor -= activity_adjustment * 0.002
  decline_factor = clamp(decline_factor, 0.5, 1.5)

  last_score = historical_scores[-1]
  decline = last_score - baseline_prediction
  adjusted_decline = decline * decline_factor
  adjusted_prediction = last_score - adjusted_decline
-/

/-- Clamp a rational into the closed interval from lo to hi, as the clamp
helper used by the what-if scenario logic. -/
def clamp (x lo hi : ℚ) : ℚ := max lo (min x hi)

/-- The what-if decline factor. sleep_adjustment is in hours,
activity_adjustment in percentage points (the sliders range over ±2 hours
and ±20 %). Transcribed from PHASE_5_COMPLETE.md lines 121-124. -/
def decline_factor (sleep_adjustment activity_adjustment : ℚ) : ℚ :=
  let f0 : ℚ := 1
  let f1 := f0 - sleep_adjustment * (5 / 100)
  let f2 := f1 - activity_adjustment * (2 / 1000)
  clamp f2 (5 / 10) (15 / 10)

/-- The counterfactual adjustment of a baseline point estimate: the decline
factor scales only the drop from the last observed score. Transcribed from
PHASE_5_COMPLETE.md lines 136-139. -/
def adjusted_prediction (last_score baseline_prediction f : ℚ) : ℚ :=
  let decline := last_score - baseline_prediction
  let adjusted_decline := decline * f
  last_score - adjusted_decline

/-- Result of a scenario call: the unmodified baseline forecast and the
counterfactually adjusted forecast, returned together (spec §4.5). -/
structure ScenarioResult where
  baseline : ℚ
  adjusted : ℚ
deriving DecidableEq

/-- Scenario mode of the inference engine at one horizon: last_score is the
patient's most recent historical score, baseline_prediction the baseline
forecast at that horizon; the deltas feed decline_factor and the adjusted
estimate is produced by adjusted_prediction. -/
def predictWithScenario (last_score baseline_prediction sleep_adjustment
    activity_adjustment : ℚ) : ScenarioResult :=
  { baseline := baseline_prediction
    adjusted := adjusted_prediction last_score baseline_prediction
      (decline_factor sleep_adjustment activity_adjustment) }

lemma clamp_mem (x lo hi : ℚ) (h : lo ≤ hi) :
    lo ≤ clamp x lo hi ∧ clamp x lo hi ≤ hi :=
  ⟨le_max_left _ _, max_le h (min_le_right _ _)⟩

/-- C1: the decline factor is initialized to 1.0, lowered by
sleepDelta * 0.05 and by the activity delta expressed as a fraction times
0.2 (so +10 % activity lowers it by 0.02, giving 0.98), then clamped to
[0.5, 1.5]. -/
theorem decline_factor_spec :
    (∀ s a : ℚ,
      decline_factor s a = clamp (1 - s * (5 / 100) - a / 100 * (2 / 10)) (1 / 2) (3 / 2)
      ∧ 1 / 2 ≤ decline_factor s a ∧ decline_factor s a ≤ 3 / 2)
    ∧ decline_factor 0 10 = 1 - 2 / 100 := by
  constructor
  · intro s a
    have harg : (1 : ℚ) - s * (5 / 100) - a * (2 / 1000)
        = 1 - s * (5 / 100) - a / 100 * (2 / 10) := by ring
    have hrw : decline_factor s a
        = clamp (1 - s * (5 / 100) - a / 100 * (2 / 10)) (1 / 2) (3 / 2) := by
      simp only [decline_factor, clamp, harg]
      norm_num
    refine ⟨hrw, ?_, ?_⟩
    · exact hrw ▸ (clamp_mem _ _ _ (by norm_num)).1
    · exact hrw ▸ (clamp_mem _ _ _ (by norm_num)).2
  · simp only [decline_factor, clamp]
    norm_num

/-- C2: the adjusted forecast equals
lastObserved − (lastObserved − pointEstimate) * f; the factor scales only
the trajectory change, never the absolute score (a common shift of both
scores shifts the adjusted forecast by the same amount, and a flat
trajectory is left untouched by every factor). -/
theorem adjusted_prediction_spec :
    ∀ last_score pe f : ℚ,
      adjusted_prediction last_score pe f = last_score - (last_score - pe) * f
      ∧ adjusted_prediction last_score pe 1 = pe
      ∧ adjusted_prediction pe pe f = pe
      ∧ ∀ c : ℚ, adjusted_prediction (last_score + c) (pe + c) f
          = adjusted_prediction last_score pe f + c := by
  intro last_score pe f
  refine ⟨rfl, ?_, ?_, fun c => ?_⟩
  · simp [adjusted_prediction]
  · simp [adjusted_prediction]
  · simp only [adjusted_prediction]
    ring

/-- C3: zero deltas leave the forecast unchanged (baseline = adjusted), and
a +2-hour sleep delta raises the adjusted estimate strictly above the
baseline estimate whenever the last observed score lies strictly above the
baseline point estimate (declining trajectory), since the factor 0.9 < 1
shrinks the drop. -/
theorem scenario_isolation :
    ∀ last_score pe : ℚ,
      (predictWithScenario last_score pe 0 0).adjusted
        = (predictWithScenario last_score pe 0 0).baseline
      ∧ (pe < last_score →
          (predictWithScenario last_score pe 2 0).baseline
            < (predictWithScenario last_score pe 2 0).adjusted) := by
  intro last_score pe
  have h00 : decline_factor 0 0 = 1 := by
    simp only [decline_factor, clamp]
    norm_num
  have h20 : decline_factor 2 0 = 9 / 10 := by
    simp only [decline_factor, clamp]
    norm_num
  constructor
  · simp [predictWithScenario, adjusted_prediction, h00]
  · intro hlt
    simp only [predictWithScenario, adjusted_prediction, h20]
    nlinarith

/-- Witness for C3 at a concrete declining patient: last observed 90,
baseline estimate 85, sleep delta +2. -/
theorem scenario_isolation_witness :
    ((85 : ℚ) < 90)
    ∧ (predictWithScenario 90 85 2 0).baseline
        < (predictWithScenario 90 85 2 0).adjusted :=
  ⟨by norm_num, (scenario_isolation 90 85).2 (by norm_num)⟩

/-! ## Training Pipeline: checkpointing and early stopping

Modelled from the spec: train.py is not part of the repository snapshot;
only its recorded behaviour survives (PHASE_4_COMPLETE.md: patience = 10,
best model saved at epoch 1, epochs 2-11 brought no improvement, early
stopping triggered at epoch 11). The bookkeeping below follows the spec's
checkpointing and early-stopping rules (§4.4) with the stopping threshold
fixed by that recorded behaviour: the run stops as soon as the
epochs-since-improvement counter reaches the configured patience. -/

/-- Per-run checkpoint/patience bookkeeping: best validation MAE seen so
far (none before the first epoch), epochs since the last strict
improvement, and the epoch whose weights the checkpoint currently holds. -/
structure TrainerState where
  best : Option ℚ
  since_improve : ℕ
  saved_epoch : Option ℕ
deriving DecidableEq

/-- State before the first epoch of a run. -/
def initTrainer : TrainerState := ⟨none, 0, none⟩

/-- Strict improvement on the best validation MAE seen so far; the first
epoch of a run always improves. -/
def improves (mae : ℚ) (best : Option ℚ) : Bool :=
  match best with
  | none => true
  | some b => decide (mae < b)

/-- One epoch of bookkeeping: on strict improvement the weights are
checkpointed and the counter resets, otherwise the counter grows. -/
def trainEpoch (s : TrainerState) (epoch : ℕ) (mae : ℚ) : TrainerState :=
  if improves mae s.best then ⟨some mae, 0, some epoch⟩
  else ⟨s.best, s.since_improve + 1, s.saved_epoch⟩

/-- Bookkeeping over an injected list of validation MAEs, starting after
a given number of epochs already run. -/
def runEpochsFrom : ℕ → TrainerState → List ℚ → TrainerState
  | _, s, [] => s
  | e, s, m :: ms => runEpochsFrom (e + 1) (trainEpoch s (e + 1) m) ms

/-- Bookkeeping over an injected list of validation MAEs, epochs numbered
from 1. -/
def runEpochs (maes : List ℚ) : TrainerState :=
  runEpochsFrom 0 initTrainer maes

/-- C4: weights are checkpointed exactly on strict improvement of the best
validation MAE, the counter resets to 0 exactly then, and on the injected
sequence [5.0, 4.2, 4.5, 3.9, 4.0, 4.1] the saved checkpoint is the 4th
epoch, the one with MAE 3.9. -/
theorem monotonic_checkpointing :
    (∀ s epoch mae,
        (trainEpoch s epoch mae).since_improve = 0 ↔ improves mae s.best = true)
    ∧ (∀ s epoch mae, improves mae s.best = true →
        (trainEpoch s epoch mae).saved_epoch = some epoch
        ∧ (trainEpoch s epoch mae).best = some mae)
    ∧ (∀ s epoch mae, improves mae s.best = false →
        (trainEpoch s epoch mae).saved_epoch = s.saved_epoch
        ∧ (trainEpoch s epoch mae).best = s.best
        ∧ (trainEpoch s epoch mae).since_improve = s.since_improve + 1)
    ∧ runEpochs [5, 42/10, 45/10, 39/10, 4, 41/10] = ⟨some (39/10), 2, some 4⟩ := by
  refine ⟨fun s epoch mae => ?_, fun s epoch mae h => ?_, fun s epoch mae h => ?_, ?_⟩
  · by_cases h : improves mae s.best = true <;> simp [trainEpoch, h]
  · simp [trainEpoch, h]
  · simp [trainEpoch, h]
  · norm_num [runEpochs, runEpochsFrom, trainEpoch, improves, initTrainer]

/-- Witness for C4 at the improving step of epoch 4 (MAE 3.9 against best
4.2). -/
theorem monotonic_checkpointing_witness :
    improves (39/10) (some (42/10)) = true
    ∧ (trainEpoch ⟨some (42/10), 1, some 2⟩ 4 (39/10)).saved_epoch = some 4
    ∧ (trainEpoch ⟨some (42/10), 1, some 2⟩ 4 (39/10)).best = some (39/10) := by
  have h : improves (39/10) (some (42/10)) = true := by norm_num [improves]
  exact ⟨h, monotonic_checkpointing.2.1 ⟨some (42/10), 1, some 2⟩ 4 (39/10) h⟩

/-- How a training run ended. -/
inductive StopReason where
  | earlyStopped
  | maxEpochsReached
deriving DecidableEq

/-- The epoch loop of the run, fuelled by the number of epochs still
allowed; epoch is the number of epochs already run. Stops with
earlyStopped as soon as the counter reaches the patience (the threshold
recorded in PHASE_4_COMPLETE.md: patience 10, stop at epoch 11 with the
best at epoch 1), else exhausts the budget with maxEpochsReached. -/
def trainLoop (patience : ℕ) (mae : ℕ → ℚ) :
    ℕ → TrainerState → ℕ → ℕ × StopReason × TrainerState
  | 0, s, epoch => (epoch, .maxEpochsReached, s)
  | n + 1, s, epoch =>
    let s2 := trainEpoch s (epoch + 1) (mae (epoch + 1))
    if patience ≤ s2.since_improve then (epoch + 1, .earlyStopped, s2)
    else trainLoop patience mae n s2 (epoch + 1)

/-- A full training run over an injected epoch-indexed validation MAE
sequence: epochs run, stop reason, final bookkeeping state. -/
def train (patience maxEpochs : ℕ) (mae : ℕ → ℚ) : ℕ × StopReason × TrainerState :=
  trainLoop patience mae maxEpochs initTrainer 0

/-- The early-stopping rule in the claim's own words: stop only when the
counter strictly exceeds the patience. -/
def trainLoopExceeds (patience : ℕ) (mae : ℕ → ℚ) :
    ℕ → TrainerState → ℕ → ℕ × StopReason × TrainerState
  | 0, s, epoch => (epoch, .maxEpochsReached, s)
  | n + 1, s, epoch =>
    let s2 := trainEpoch s (epoch + 1) (mae (epoch + 1))
    if patience < s2.since_improve then (epoch + 1, .earlyStopped, s2)
    else trainLoopExceeds patience mae n s2 (epoch + 1)

/-- A full run under the claim's strict-excess reading. -/
def trainExceeds (patience maxEpochs : ℕ) (mae : ℕ → ℚ) :
    ℕ × StopReason × TrainerState :=
  trainLoopExceeds patience mae maxEpochs initTrainer 0

/-- The spec's stagnating validation MAE sequence 5.0, 5.1, 5.2, 5.3, ...
at epochs 1, 2, 3, 4, ... -/
def maeStagnant (epoch : ℕ) : ℚ := 5 + ((epoch : ℚ) - 1) / 10

/-- Counterexample to C5 as stated: with patience 3 on the stagnating
sequence, the run stops after the 4th epoch with the counter equal to 3,
which does not exceed the patience; a rule that stops only when the
counter exceeds the patience would instead run a 5th epoch. -/
theorem early_stopping_counterexample :
    train 3 10 maeStagnant = (4, .earlyStopped, ⟨some 5, 3, some 1⟩)
    ∧ trainExceeds 3 10 maeStagnant = (5, .earlyStopped, ⟨some 5, 4, some 1⟩)
    ∧ ¬ (5 : ℕ) = 4
    ∧ ¬ (3 : ℕ) > 3 := by
  refine ⟨?_, ?_, by norm_num, by norm_num⟩ <;>
    norm_num [train, trainExceeds, trainLoop, trainLoopExceeds, trainEpoch,
      improves, initTrainer, maeStagnant]

lemma trainLoop_early_since (patience : ℕ) (mae : ℕ → ℚ) (hp : 0 < patience) :
    ∀ n s epoch e2 s2, s.since_improve < patience →
      trainLoop patience mae n s epoch = (e2, .earlyStopped, s2) →
      s2.since_improve = patience := by
  intro n
  induction n with
  | zero =>
    intro s epoch e2 s2 _ h
    simp only [trainLoop] at h
    injection h with h1 h2
    injection h2 with h3 h4
    exact StopReason.noConfusion h3
  | succ n ih =>
    intro s epoch e2 s2 hlt h
    simp only [trainLoop] at h
    by_cases hstop : patience ≤ (trainEpoch s (epoch + 1) (mae (epoch + 1))).since_improve
    · rw [if_pos hstop] at h
      injection h with h1 h2
      injection h2 with h3 h4
      subst h4
      cases hb : improves (mae (epoch + 1)) s.best with
      | false =>
        have hs : (trainEpoch s (epoch + 1) (mae (epoch + 1))).since_improve
            = s.since_improve + 1 := by simp [trainEpoch, hb]
        omega
      | true =>
        have hs : (trainEpoch s (epoch + 1) (mae (epoch + 1))).since_improve = 0 := by
          simp [trainEpoch, hb]
        omega
    · rw [if_neg hstop] at h
      exact ih _ _ _ _ (by omega) h

lemma trainLoop_max_epochs (patience : ℕ) (mae : ℕ → ℚ) :
    ∀ n s epoch e2 s2,
      trainLoop patience mae n s epoch = (e2, .maxEpochsReached, s2) →
      e2 = epoch + n := by
  intro n
  induction n with
  | zero =>
    intro s epoch e2 s2 h
    simp only [trainLoop] at h
    injection h with h1 h2
    omega
  | succ n ih =>
    intro s epoch e2 s2 h
    simp only [trainLoop] at h
    by_cases hstop : patience ≤ (trainEpoch s (epoch + 1) (mae (epoch + 1))).since_improve
    · rw [if_pos hstop] at h
      injection h with h1 h2
      injection h2 with h3 h4
      exact StopReason.noConfusion h3
    · rw [if_neg hstop] at h
      have := ih _ _ _ _ h
      omega

/-- C5 amended: training transitions to EarlyStopped exactly when the
epochs-since-improvement counter reaches (is greater than or equal to) the
configured patience, otherwise it stops at the configured maximum epoch
count; with patience 3 on the stagnating sequence 5.0, 5.1, 5.2, 5.3 the
run stops after the 4th epoch, the counter standing at 3. -/
theorem early_stopping_amended :
    (∀ patience maxEpochs mae e2 s2, 0 < patience →
        train patience maxEpochs mae = (e2, .earlyStopped, s2) →
        s2.since_improve = patience)
    ∧ (∀ patience maxEpochs mae e2 s2,
        train patience maxEpochs mae = (e2, .maxEpochsReached, s2) →
        e2 = maxEpochs)
    ∧ train 3 10 maeStagnant = (4, .earlyStopped, ⟨some 5, 3, some 1⟩) := by
  refine ⟨?_, ?_,
    by norm_num [train, trainLoop, trainEpoch, improves, initTrainer, maeStagnant]⟩
  · intro patience maxEpochs mae e2 s2 hp h
    exact trainLoop_early_since patience mae hp maxEpochs initTrainer 0 e2 s2
      (by simpa [initTrainer] using hp) h
  · intro patience maxEpochs mae e2 s2 h
    simpa using trainLoop_max_epochs patience mae maxEpochs initTrainer 0 e2 s2 h

/-- Witness for C5's amended statement at patience 3 on the stagnating
sequence. -/
theorem early_stopping_amended_witness :
    (0 < 3) ∧ TrainerState.since_improve ⟨some 5, 3, some 1⟩ = 3 :=
  ⟨by norm_num,
    early_stopping_amended.1 3 10 maeStagnant 4 ⟨some 5, 3, some 1⟩ (by norm_num)
      early_stopping_amended.2.2⟩

/-! ## Fusion Encoder and Forecast Head

Modelled from the spec: fusion_model.py and forecast_model.py are not part
of the repository snapshot; their architecture is recorded in
PHASE_3_COMPLETE.md (fusion: Linear 258 → 128, transformer block,
projections back to 128, dropout 0.1 at each stage; forecast: GRU over
130-wide step inputs with hidden size 64 and a 64 → 64 → 2 head; scalar,
timestamp and score normalization with frozen statistics). Vectors are
lists of rationals; each learned linear map is a list of weight rows; the
stochastic-regularization (dropout) mask stream is an explicit argument,
consumed only when training mode is active, and normalization is modelled
by mean-centering (the square-root-free core of the layer norm). -/

/-- A stream of dropout mask values: site index → component index →
multiplier. -/
def Rng : Type := ℕ → ℕ → ℚ

/-- Dot product of two rational vectors. -/
def dotProd (xs ys : List ℚ) : ℚ := (List.zipWith (· * ·) xs ys).sum

/-- A learned linear map: one output component per weight row. -/
def matVec (m : List (List ℚ)) (v : List ℚ) : List ℚ :=
  m.map (fun row => dotProd row v)

lemma matVec_length (m : List (List ℚ)) (v : List ℚ) :
    (matVec m v).length = m.length := by simp [matVec]

/-- Rectified linear activation. -/
def reluQ (x : ℚ) : ℚ := max x 0

/-- Elementwise ReLU. -/
def reluV (v : List ℚ) : List ℚ := v.map reluQ

/-- Mean of a vector's components. -/
def vmean (v : List ℚ) : ℚ := v.sum / v.length

/-- Mean-centering normalization. -/
def centerV (v : List ℚ) : List ℚ := v.map (fun x => x - vmean v)

/-- A dropout site: multiplies componentwise by the mask when the
stochastic regularization is active, and is the identity in eval mode. -/
def dropoutSite (training : Bool) (mask : ℕ → ℚ) (v : List ℚ) : List ℚ :=
  if training then v.mapIdx (fun i x => x * mask i) else v

lemma dropoutSite_false (mask : ℕ → ℚ) (v : List ℚ) :
    dropoutSite false mask v = v := rfl

lemma mapIdx_mul_one (v : List ℚ) : v.mapIdx (fun _ x => x * 1) = v := by
  induction v with
  | nil => rfl
  | cons a t ih =>
    simp only [List.mapIdx_cons, mul_one]
    simp only [mul_one] at ih
    rw [ih]

lemma dropoutSite_one (v : List ℚ) :
    dropoutSite true (fun _ => 1) v = v := by
  simpa [dropoutSite] using mapIdx_mul_one v

lemma dropoutSite_length (training : Bool) (mask : ℕ → ℚ) (v : List ℚ) :
    (dropoutSite training mask v).length = v.length := by
  cases training <;> simp [dropoutSite]

/-- Learned parameters of the Fusion Encoder, with the row counts of each
projection fixed by the architecture (joint dimension D = 128). The frozen
per-scalar (mean, std) pairs standardize the scalar features. -/
structure FusionWeights where
  inProj : List (List ℚ)
  attnW : List (List ℚ)
  outProj1 : List (List ℚ)
  outProj2 : List (List ℚ)
  scalarStats : List (ℚ × ℚ)
  hIn : inProj.length = 128
  hAttn : attnW.length = 128
  hOut1 : outProj1.length = 128
  hOut2 : outProj2.length = 128

/-- Forward pass of the Fusion Encoder for one timepoint: concatenate
audio, stylus and standardized scalars; project to 128 with normalization,
ReLU and dropout; a self-attention-style mixing block with residual,
normalization and dropout; project back to 128 through the two-layer
output head. Dropout sites 0, 1, 2 consume the mask stream only in
training mode. -/
def fusionForward (w : FusionWeights) (training : Bool) (rng : Rng)
    (audio stylus scalars : List ℚ) : List ℚ :=
  let norms := List.zipWith (fun c p => (c - Prod.fst p) / Prod.snd p) scalars w.scalarStats
  let x := audio ++ stylus ++ norms
  let h1 := dropoutSite training (rng 0) (reluV (centerV (matVec w.inProj x)))
  let h2 := dropoutSite training (rng 1)
    (centerV (List.zipWith (· + ·) h1 (matVec w.attnW h1)))
  let h3 := dropoutSite training (rng 2) (reluV (matVec w.outProj1 h2))
  matVec w.outProj2 h3

/-- One historical timepoint as consumed by the Forecast Head: the joint
embedding from the Fusion Encoder, its timestamp (months), and the
observed cognitive score when present. -/
structure TimepointRecord where
  emb : List ℚ
  timestamp : ℚ
  score : Option ℚ

/-- Timestamp standardization with the frozen statistics mean 12, std 8. -/
def normTimestamp (t : ℚ) : ℚ := (t - 12) / 8

/-- Score standardization with the frozen statistics mean 90, std 5. -/
def normScore (s : ℚ) : ℚ := (s - 90) / 5

/-- Normalized observed score, or the sentinel 0 for an unobserved
timepoint. -/
def scoreInput : Option ℚ → ℚ
  | none => 0
  | some s => normScore s

/-- Step input of the recurrent model: joint embedding concatenated with
normalized timestamp and score sentinel (130-wide for D = 128). -/
def stepInput (tp : TimepointRecord) : List ℚ :=
  tp.emb ++ [normTimestamp tp.timestamp, scoreInput tp.score]

/-- Learned parameters of the Forecast Head: recurrent input and hidden
maps (hidden size 64) and the two-layer output head emitting one value per
horizon (H = 2). -/
structure ForecastWeights where
  wx : List (List ℚ)
  wh : List (List ℚ)
  head1 : List (List ℚ)
  head2 : List (List ℚ)
  hWx : wx.length = 64
  hWh : wh.length = 64
  hHead1 : head1.length = 64
  hHead2 : head2.length = 2

/-- One recurrent step: combine the projected input and hidden state,
activate, and pass the inter-layer dropout site. -/
def gruStep (fw : ForecastWeights) (training : Bool) (mask : ℕ → ℚ)
    (h x : List ℚ) : List ℚ :=
  dropoutSite training mask
    (reluV (List.zipWith (· + ·) (matVec fw.wx x) (matVec fw.wh h)))

/-- Run the recurrence over the sequence, one dropout site per step
(sites 1, 2, ...). -/
def forecastSteps (fw : ForecastWeights) (training : Bool) (rng : Rng) :
    ℕ → List ℚ → List TimepointRecord → List ℚ
  | _, h, [] => h
  | i, h, tp :: rest =>
    forecastSteps fw training rng (i + 1)
      (gruStep fw training (rng (1 + i)) h (stepInput tp)) rest

/-- Forward pass of the Forecast Head on a nonempty sequence: final hidden
state through the 64 → 64 → 2 head (head dropout at site 0). -/
def forecastCore (fw : ForecastWeights) (training : Bool) (rng : Rng)
    (seq : List TimepointRecord) : List ℚ :=
  let hFinal := forecastSteps fw training rng 0 (List.replicate 64 0) seq
  matVec fw.head2 (dropoutSite training (rng 0) (reluV (matVec fw.head1 hFinal)))

/-- Typed failure of the Forecast Head. -/
inductive ForecastError where
  | emptySequence
deriving DecidableEq

/-- The Forecast Head contract: zero timepoints fail with EmptySequence,
any other sequence produces the multi-horizon outputs. -/
def forecastForward (fw : ForecastWeights) (training : Bool) (rng : Rng)
    (seq : List TimepointRecord) : Except ForecastError (List ℚ) :=
  match seq with
  | [] => .error .emptySequence
  | _ :: _ => .ok (forecastCore fw training rng seq)

/-- One timepoint of raw inputs as delivered by the embedding and metadata
providers. -/
structure PatientTimepoint where
  audio : List ℚ
  stylus : List ℚ
  scalars : List ℚ
  timestamp : ℚ
  score : Option ℚ

/-- Point-mode inference: run the Fusion Encoder per timepoint, assemble
the sequence, run the Forecast Head; the fusion and forecast mask streams
are passed separately. -/
def predictPoint (w : FusionWeights) (fw : ForecastWeights) (training : Bool)
    (rngF rngS : Rng) (tps : List PatientTimepoint) :
    Except ForecastError (List ℚ) :=
  forecastForward fw training rngS
    (tps.map (fun tp =>
      { emb := fusionForward w training rngF tp.audio tp.stylus tp.scalars
        timestamp := tp.timestamp
        score := tp.score }))

/-- Normal inference: eval mode, no stochastic regularization active. -/
def predict (w : FusionWeights) (fw : ForecastWeights)
    (tps : List PatientTimepoint) : Except ForecastError (List ℚ) :=
  predictPoint w fw false (fun _ _ => 0) (fun _ _ => 0) tps

lemma fusionForward_rng_irrel (w : FusionWeights) (r1 r2 : Rng)
    (audio stylus scalars : List ℚ) :
    fusionForward w false r1 audio stylus scalars
      = fusionForward w false r2 audio stylus scalars := by
  simp [fusionForward, dropoutSite_false]

lemma forecastSteps_rng_irrel (fw : ForecastWeights) (r1 r2 : Rng) :
    ∀ (seq : List TimepointRecord) (i : ℕ) (h : List ℚ),
      forecastSteps fw false r1 i h seq = forecastSteps fw false r2 i h seq := by
  intro seq
  induction seq with
  | nil => intro i h; rfl
  | cons tp rest ih =>
    intro i h
    simp only [forecastSteps, gruStep, dropoutSite_false]
    exact ih (i + 1) _

lemma forecastForward_rng_irrel (fw : ForecastWeights) (r1 r2 : Rng)
    (seq : List TimepointRecord) :
    forecastForward fw false r1 seq = forecastForward fw false r2 seq := by
  cases seq with
  | nil => rfl
  | cons tp rest =>
    simp only [forecastForward, forecastCore, dropoutSite_false,
      forecastSteps_rng_irrel fw r1 r2]

lemma fusionForward_one (w : FusionWeights) (audio stylus scalars : List ℚ)
    (r : Rng) :
    fusionForward w true (fun _ _ => 1) audio stylus scalars
      = fusionForward w false r audio stylus scalars := by
  simp [fusionForward, dropoutSite_false, dropoutSite_one]

lemma forecastSteps_one (fw : ForecastWeights) (r : Rng) :
    ∀ (seq : List TimepointRecord) (i : ℕ) (h : List ℚ),
      forecastSteps fw true (fun _ _ => 1) i h seq
        = forecastSteps fw false r i h seq := by
  intro seq
  induction seq with
  | nil => intro i h; rfl
  | cons tp rest ih =>
    intro i h
    simp only [forecastSteps, gruStep, dropoutSite_false, dropoutSite_one]
    exact ih (i + 1) _

lemma forecastForward_one (fw : ForecastWeights) (r : Rng)
    (seq : List TimepointRecord) :
    forecastForward fw true (fun _ _ => 1) seq = forecastForward fw false r seq := by
  cases seq with
  | nil => rfl
  | cons tp rest =>
    simp only [forecastForward, forecastCore, dropoutSite_false, dropoutSite_one,
      forecastSteps_one fw r]

/-- C7: with stochastic regularization disabled, prediction does not
depend on the mask stream at all — two calls with identical inputs give
identical outputs whatever randomness is on offer — and running the whole
pipeline in training mode with the neutral all-ones masks coincides with
eval mode, so the dropout sites are the only place randomness enters the
core. -/
theorem predict_deterministic :
    ∀ (w : FusionWeights) (fw : ForecastWeights) (tps : List PatientTimepoint)
      (r1 r2 r3 r4 : Rng),
      predictPoint w fw false r1 r2 tps = predictPoint w fw false r3 r4 tps
      ∧ predict w fw tps = predictPoint w fw false r1 r2 tps
      ∧ predictPoint w fw true (fun _ _ => 1) (fun _ _ => 1) tps
          = predict w fw tps := by
  have key : ∀ (w : FusionWeights) (fw : ForecastWeights)
      (tps : List PatientTimepoint) (r1 r2 r3 r4 : Rng),
      predictPoint w fw false r1 r2 tps = predictPoint w fw false r3 r4 tps := by
    intro w fw tps r1 r2 r3 r4
    simp only [predictPoint]
    rw [forecastForward_rng_irrel fw r2 r4]
    congr 1
  intro w fw tps r1 r2 r3 r4
  refine ⟨key w fw tps r1 r2 r3 r4, key w fw tps _ _ r1 r2, ?_⟩
  simp only [predictPoint, predict]
  rw [forecastForward_one fw (fun _ _ => 0)]
  congr 1
  exact List.map_congr_left (fun tp _ => by
    simp only [fusionForward_one w _ _ _ (fun _ _ => 0)])

/-- C8: the Fusion Encoder emits a vector of exactly the joint dimension
D = 128 for every input timepoint, in both modes and under every mask
stream; the Forecast Head accepts every nonempty sequence and emits
exactly H = 2 values, one per configured horizon. -/
theorem shape_invariants :
    (∀ (w : FusionWeights) (training : Bool) (rng : Rng)
        (audio stylus scalars : List ℚ),
        (fusionForward w training rng audio stylus scalars).length = 128)
    ∧ (∀ (fw : ForecastWeights) (training : Bool) (rng : Rng)
        (seq : List TimepointRecord), seq ≠ [] →
        ∃ out, forecastForward fw training rng seq = .ok out ∧ out.length = 2) := by
  constructor
  · intro w training rng audio stylus scalars
    simp [fusionForward, matVec_length, w.hOut2]
  · intro fw training rng seq hne
    cases seq with
    | nil => exact absurd rfl hne
    | cons tp rest =>
      refine ⟨forecastCore fw training rng (tp :: rest), rfl, ?_⟩
      simp [forecastCore, matVec_length, fw.hHead2]

/-- Concrete small forecast-head weights used by witnesses. -/
def smallForecastWeights : ForecastWeights :=
  ⟨List.replicate 64 [], List.replicate 64 [], List.replicate 64 [],
    List.replicate 2 [], by simp, by simp, by simp, by simp⟩

/-- Witness for C8's forecast conjunct on a one-timepoint sequence
(cold start). -/
theorem shape_invariants_witness :
    ([⟨[], 0, none⟩] : List TimepointRecord) ≠ []
    ∧ ∃ out, forecastForward smallForecastWeights false (fun _ _ => 0)
        [⟨[], 0, none⟩] = .ok out ∧ out.length = 2 :=
  ⟨by simp, shape_invariants.2 smallForecastWeights false (fun _ _ => 0)
    [⟨[], 0, none⟩] (by simp)⟩

/-! ## Uncertainty Estimator

Modelled from the spec: the predict_with_confidence routine of
forecast_model.py is not part of the repository snapshot; PHASE_3/5 record
only its interface (n_samples = 10 MC-dropout passes, mean/std per
horizon, 95 % CI). The estimator below runs the Forecast Head once per
supplied mask stream with stochastic regularization active, and summarizes
each horizon by the sample mean and the (unbiased) sample variance — the
square of the sample standard deviation, which itself is irrational in
general and enters only through the derived interval mean ± z·std. -/

/-- Typed failure of the Uncertainty Estimator. -/
inductive UncertaintyError where
  | insufficientSamples
deriving DecidableEq

/-- Arithmetic mean of a list of samples. -/
def sampleMean (xs : List ℚ) : ℚ := xs.sum / (xs.length : ℚ)

/-- Unbiased sample variance (square of the sample standard deviation);
meaningful only for two or more samples. -/
def sampleVar (xs : List ℚ) : ℚ :=
  ((xs.map (fun x => (x - sampleMean xs) ^ 2)).sum) / ((xs.length : ℚ) - 1)

/-- Running-sum implementation of the per-horizon statistics, as a
single pass over the collected outputs would compute them. -/
def mcStats (xs : List ℚ) : ℚ × ℚ :=
  let n : ℚ := (xs.length : ℚ)
  let s := xs.sum
  let sq := (xs.map (fun x => x ^ 2)).sum
  (s / n, (sq - s ^ 2 / n) / (n - 1))

/-- The N collected outputs of horizon hz across the stochastic forward
passes, one pass per mask stream, stochastic regularization active. -/
def mcSamples (fw : ForecastWeights) (seq : List TimepointRecord)
    (rngs : List Rng) (hz : ℕ) : List ℚ :=
  rngs.map (fun r => (forecastCore fw true r seq).getD hz 0)

/-- The Uncertainty Estimator: requires at least two stochastic passes,
then returns (mean, sample variance) for each of the H = 2 horizons. -/
def predict_with_confidence (fw : ForecastWeights) (seq : List TimepointRecord)
    (rngs : List Rng) : Except UncertaintyError (List (ℚ × ℚ)) :=
  if rngs.length < 2 then .error .insufficientSamples
  else .ok ((List.range 2).map (fun hz => mcStats (mcSamples fw seq rngs hz)))

lemma sum_sq_dev (m : ℚ) (xs : List ℚ) :
    (xs.map (fun x => (x - m) ^ 2)).sum
      = (xs.map (fun x => x ^ 2)).sum - 2 * m * xs.sum + (xs.length : ℚ) * m ^ 2 := by
  induction xs with
  | nil => simp
  | cons a t ih =>
    simp only [List.map_cons, List.sum_cons, List.length_cons, ih]
    push_cast
    ring

lemma mcStats_eq (xs : List ℚ) (h : xs ≠ []) :
    mcStats xs = (sampleMean xs, sampleVar xs) := by
  have hn : (xs.length : ℚ) ≠ 0 := by
    have h0 : xs.length ≠ 0 := by simpa [List.length_eq_zero] using h
    exact_mod_cast h0
  have key : (xs.map (fun x => (x - sampleMean xs) ^ 2)).sum
      = (xs.map (fun x => x ^ 2)).sum - xs.sum ^ 2 / (xs.length : ℚ) := by
    rw [sum_sq_dev, sampleMean]
    field_simp
    ring
  simp only [mcStats, sampleVar, key]
  rw [sampleMean]

/-- C6: with fewer than two configured passes the Uncertainty Estimator
fails with InsufficientSamples; with N ≥ 2 it succeeds and reports, for
each of the two horizons, exactly the sample mean and the unbiased sample
variance (squared sample standard deviation) of the N stochastic forward
passes of the Forecast Head. -/
theorem predict_with_confidence_spec :
    ∀ (fw : ForecastWeights) (seq : List TimepointRecord) (rngs : List Rng),
      (rngs.length < 2 →
        predict_with_confidence fw seq rngs = .error .insufficientSamples)
      ∧ (2 ≤ rngs.length →
        predict_with_confidence fw seq rngs
          = .ok ((List.range 2).map (fun hz =>
              (sampleMean (mcSamples fw seq rngs hz),
                sampleVar (mcSamples fw seq rngs hz))))) := by
  intro fw seq rngs
  constructor
  · intro hlt
    simp [predict_with_confidence, hlt]
  · intro hge
    have hne : rngs ≠ [] := by
      intro hnil
      rw [hnil] at hge
      simp at hge
    have hmap : ∀ hz, mcSamples fw seq rngs hz ≠ [] := by
      intro hz hnil
      exact hne (List.map_eq_nil_iff.mp hnil)
    rw [predict_with_confidence, if_neg (by omega)]
    congr 1
    exact List.map_congr_left (fun hz _ => mcStats_eq _ (hmap hz))

/-- Witness for C6 with two all-zero mask streams on the empty history. -/
theorem predict_with_confidence_witness :
    2 ≤ ([fun _ _ => 0, fun _ _ => 0] : List Rng).length
    ∧ predict_with_confidence smallForecastWeights []
        [fun _ _ => 0, fun _ _ => 0]
      = .ok ((List.range 2).map (fun hz =>
          (sampleMean (mcSamples smallForecastWeights [] [fun _ _ => 0, fun _ _ => 0] hz),
            sampleVar (mcSamples smallForecastWeights [] [fun _ _ => 0, fun _ _ => 0] hz)))) :=
  ⟨by simp,
    (predict_with_confidence_spec smallForecastWeights []
      [fun _ _ => 0, fun _ _ => 0]).2 (by simp)⟩

/-! ## Checkpoint store write protocol

Modelled from the spec: the checkpoint-saving code of train.py is not part
of the repository snapshot (PHASE_4_COMPLETE.md records only that
checkpoints/best_model.pt is saved when validation improves). The spec
mandates write-to-temp-then-rename: a write may begin only after a full
validation pass, the bytes go to a temporary blob invisible to readers,
and only a completely written temporary is renamed — atomically — onto the
named blob that readers open. -/

/-- A blob in the checkpoint store: missing, half-written, or a complete
checkpoint carrying its training metadata (epoch, validation MAE). -/
inductive FileC where
  | absent
  | writing
  | full (epoch : ℕ) (mae : ℚ)
deriving DecidableEq

/-- Store state: the temporary blob (invisible to readers), the named blob
readers open, and whether a full validation pass has just completed with
an improvement (entitling the trainer to write). -/
structure CkptState where
  temp : FileC
  store : FileC
  validated : Bool

/-- Steps of the training run as seen by the checkpoint store. A write
begins only when validated; the rename requires the temporary to be a
complete checkpoint and installs it atomically. -/
inductive CkptStep : CkptState → CkptState → Prop
  | validate (s : CkptState) (improved : Bool) :
      CkptStep s ⟨s.temp, s.store, improved⟩
  | beginWrite (s : CkptState) (h : s.validated = true) :
      CkptStep s ⟨FileC.writing, s.store, s.validated⟩
  | finishWrite (s : CkptState) (e : ℕ) (m : ℚ) (h : s.temp = FileC.writing) :
      CkptStep s ⟨FileC.full e m, s.store, s.validated⟩
  | rename (s : CkptState) (e : ℕ) (m : ℚ) (h : s.temp = FileC.full e m) :
      CkptStep s ⟨FileC.absent, FileC.full e m, false⟩

/-- States reachable from the empty store over any interleaving of
protocol steps. -/
inductive CkptReachable : CkptState → Prop
  | init : CkptReachable ⟨FileC.absent, FileC.absent, false⟩
  | step {s t : CkptState} : CkptReachable s → CkptStep s t → CkptReachable t

/-- C9: in every reachable store state the named blob a reader opens is
never half-written; moreover a step changes the named blob only by
renaming an already complete temporary onto it, and a write to the
temporary begins only when a full validation pass has completed. -/
theorem checkpoint_never_corrupt :
    (∀ s, CkptReachable s → s.store ≠ FileC.writing)
    ∧ (∀ s t, CkptStep s t →
        t.store = s.store ∨ ∃ e m, s.temp = FileC.full e m ∧ t.store = FileC.full e m)
    ∧ (∀ s t, CkptStep s t → t.temp = FileC.writing →
        s.temp = FileC.writing ∨ s.validated = true) := by
  refine ⟨?_, ?_, ?_⟩
  · intro s hs
    induction hs with
    | init => exact fun hcon => FileC.noConfusion hcon
    | step hr hstep ih =>
      cases hstep with
      | validate improved => exact ih
      | beginWrite h => exact ih
      | finishWrite e m h => exact ih
      | rename e m h => exact fun hcon => FileC.noConfusion hcon
  · intro s t hstep
    cases hstep with
    | validate improved => exact Or.inl rfl
    | beginWrite h => exact Or.inl rfl
    | finishWrite e m h => exact Or.inl rfl
    | rename e m h => exact Or.inr ⟨_, _, h, rfl⟩
  · intro s t hstep htemp
    cases hstep with
    | validate improved => exact Or.inl htemp
    | beginWrite h => exact Or.inr h
    | finishWrite e m h => exact Or.inl h
    | rename e m h => exact absurd htemp (fun hcon => FileC.noConfusion hcon)

/-- Witness for C9 at the state reached by one full
validate-write-finish-rename round (the PHASE_4 best checkpoint: epoch 1,
validation MAE 2.87). -/
theorem checkpoint_never_corrupt_witness :
    CkptReachable ⟨FileC.absent, FileC.full 1 (287/100), false⟩
    ∧ (⟨FileC.absent, FileC.full 1 (287/100), false⟩ : CkptState).store
        ≠ FileC.writing := by
  have h0 : CkptReachable ⟨FileC.absent, FileC.absent, false⟩ := .init
  have h1 : CkptReachable ⟨FileC.absent, FileC.absent, true⟩ :=
    .step h0 (.validate _ true)
  have h2 : CkptReachable ⟨FileC.writing, FileC.absent, true⟩ :=
    .step h1 (.beginWrite _ rfl)
  have h3 : CkptReachable ⟨FileC.full 1 (287/100), FileC.absent, true⟩ :=
    .step h2 (.finishWrite _ 1 (287/100) rfl)
  have h4 : CkptReachable ⟨FileC.absent, FileC.full 1 (287/100), false⟩ :=
    .step h3 (.rename _ 1 (287/100) rfl)
  exact ⟨h4, checkpoint_never_corrupt.1 _ h4⟩

/-! ## Stylus embedding extractor

Modelled from the spec and PHASE_2_COMPLETE.md: stylus_embed.py is not
part of the repository snapshot; the docs record its architecture — 10
handcrafted features, hidden layers 64 → 64 with ReLU (dropout inactive at
extraction time), output 128 with a final Tanh so every component is
normalized to [-1, 1]. Tanh is transcendental, so this component is
embedded over ℝ. -/

/-- Learned parameters of the stylus-embedding MLP: 10 → 64 → 64 → 128. -/
structure StylusWeights where
  w1 : Fin 64 → Fin 10 → ℝ
  b1 : Fin 64 → ℝ
  w2 : Fin 64 → Fin 64 → ℝ
  b2 : Fin 64 → ℝ
  w3 : Fin 128 → Fin 64 → ℝ
  b3 : Fin 128 → ℝ

/-- A dense layer over the reals. -/
noncomputable def denseLayer {m n : ℕ} (w : Fin m → Fin n → ℝ) (b : Fin m → ℝ)
    (x : Fin n → ℝ) : Fin m → ℝ :=
  fun i => (∑ j, w i j * x j) + b i

/-- ReLU over the reals. -/
noncomputable def reluR (x : ℝ) : ℝ := max x 0

/-- The stylus embedding extractor: handcrafted features through the MLP,
final Tanh activation bounding the 128 components. -/
noncomputable def stylus_embed (p : StylusWeights) (features : Fin 10 → ℝ) :
    Fin 128 → ℝ :=
  let h1 := fun i => reluR (denseLayer p.w1 p.b1 features i)
  let h2 := fun i => reluR (denseLayer p.w2 p.b2 h1 i)
  fun i => Real.tanh (denseLayer p.w3 p.b3 h2 i)

lemma tanh_lt_one (x : ℝ) : Real.tanh x < 1 := by
  rw [Real.tanh_eq_sinh_div_cosh, div_lt_one (Real.cosh_pos x)]
  exact Real.sinh_lt_cosh x

lemma neg_one_lt_tanh (x : ℝ) : -1 < Real.tanh x := by
  have h := tanh_lt_one (-x)
  rw [Real.tanh_neg] at h
  linarith

/-- C10: every one of the 128 components of every stylus embedding — for
every weight setting and every input trace's features, hence for every
stylus embedding the Fusion Encoder consumes — lies in the closed interval
[-1, 1], because the network's final activation is a Tanh. -/
theorem stylus_embedding_bounded :
    ∀ (p : StylusWeights) (features : Fin 10 → ℝ) (i : Fin 128),
      -1 ≤ stylus_embed p features i ∧ stylus_embed p features i ≤ 1 := by
  intro p features i
  exact ⟨(neg_one_lt_tanh _).le, (tanh_lt_one _).le⟩

end Trifetch
